import Mathlib

/-!
# Shallow embedding of the delivery-bot pipeline (src/main.py)

The source is a single Python file implementing a chat bot:
an access filter over allowed (chat, thread) pairs, a price classifier
over a regex table (`PRICE_MAP` / `extract_amount`), an in-memory income
ledger (`add_income` / `get_income_today`), a phone validator
(`is_valid_phone`), a field extractor over completion text
(`extract_fields`), and a dispatcher (`handle_message`) that validates
an extracted order and replies.

Python strings are modelled as Lean `String` / `List Char`; `str.lower`,
`str.strip` and the whitespace class are modelled for the ASCII and
Cyrillic ranges that occur in the program's data.  Python `int` is `Int`.
The wall-clock date used by the ledger is an explicit `Nat` parameter.
Regex searches of the concrete patterns in the source are modelled by
equivalent executable predicates; each one documents the pattern it
embeds.  Effects of the dispatcher (crediting income, sending messages,
calling the completion provider) are recorded in an explicit trace.
-/

set_option maxRecDepth 16384

namespace Main

/-- Python `str.lower` per character, for the ranges used by the program:
ASCII `A`-`Z` and Cyrillic `А`-`Я` map down by 32, `Ё` maps to `ё`;
other characters are unchanged. -/
def pyLower (c : Char) : Char :=
  if 'A' ≤ c ∧ c ≤ 'Z' then Char.ofNat (c.toNat + 32)
  else if 'А' ≤ c ∧ c ≤ 'Я' then Char.ofNat (c.toNat + 32)
  else if c = 'Ё' then 'ё'
  else c

/-- Python `str.lower` on a whole string. -/
def lowerStr (s : String) : String := String.mk (s.data.map pyLower)

/-- Python whitespace class (`\s`, `str.strip` default): space, tab,
newline, carriage return, vertical tab, form feed. -/
def pyIsSpace (c : Char) : Bool :=
  c = ' ' || c = '\t' || c = '\n' || c = '\r' || c = '\x0b' || c = '\x0c'

/-- Python `str.strip()`: drop leading and trailing whitespace. -/
def pyStrip (s : String) : String :=
  String.mk (((s.data.dropWhile pyIsSpace).reverse.dropWhile pyIsSpace).reverse)

/-- Whether `pat` occurs as a contiguous substring of `t`
(Python `pat in t` / successful `re.search` of a literal pattern). -/
def isSub (pat : List Char) (t : List Char) : Bool :=
  t.tails.any (fun suf => pat.isPrefixOf suf)

/-- The regex patterns of `PRICE_MAP`, as an inductive so the table keeps
the source's (pattern, amount) shape. -/
inductive PricePattern where
  /-- the key `r"\+|^-"` -/
  | plusOrStartMinus
  /-- the key `r"мк(\.|$|\s)|МК|Мк|мк"` -/
  | mkGeneric
  /-- the literal-substring keys `r"мк доп <colour>"` -/
  | literal (lit : String)
deriving Repr, DecidableEq

/-- Search of one `PRICE_MAP` pattern in `t`.
`r"\+|^-"` matches iff `t` contains `+` or starts with `-`.
`r"мк(\.|$|\s)|МК|Мк|мк"` matches iff one of its alternatives occurs;
the bare `мк` alternative subsumes `мк(\.|$|\s)`, so a match exists iff
one of the three literals `МК`, `Мк`, `мк` is a substring.
A literal pattern matches iff it is a substring. -/
def patternSearch : PricePattern → List Char → Bool
  | .plusOrStartMinus, t => decide ('+' ∈ t) || decide (t.head? = some '-')
  | .mkGeneric, t => isSub "МК".data t || isSub "Мк".data t || isSub "мк".data t
  | .literal lit, t => isSub lit.data t

/-- The table `PRICE_MAP` in the source's insertion order. -/
def PRICE_MAP : List (PricePattern × Int) :=
  [ (.plusOrStartMinus, 10),
    (.mkGeneric, 15),
    (.literal "мк доп синяя", 23),
    (.literal "мк доп красная", 31),
    (.literal "мк доп оранжевая", 40),
    (.literal "мк доп салатовая", 48),
    (.literal "мк доп коричневая", 57),
    (.literal "мк доп светло-серая", 65),
    (.literal "мк доп розовая", 74),
    (.literal "мк доп темно-серая", 82),
    (.literal "мк доп голубая", 91) ]

/-- The result of `sorted(PRICE_MAP.items(), key=lambda x: -x[1])`: the rule table in
descending-amount order.  All amounts are distinct, so this list is the
unique reordering of `PRICE_MAP` that is sorted by amount descending;
`sortedRules_perm` and `sortedRules_sorted` below check both facts. -/
def sortedRules : List (PricePattern × Int) :=
  [ (.literal "мк доп голубая", 91),
    (.literal "мк доп темно-серая", 82),
    (.literal "мк доп розовая", 74),
    (.literal "мк доп светло-серая", 65),
    (.literal "мк доп коричневая", 57),
    (.literal "мк доп салатовая", 48),
    (.literal "мк доп оранжевая", 40),
    (.literal "мк доп красная", 31),
    (.literal "мк доп синяя", 23),
    (.mkGeneric, 15),
    (.plusOrStartMinus, 10) ]

theorem sortedRules_perm : sortedRules.Perm PRICE_MAP := by decide

theorem sortedRules_sorted : sortedRules.Pairwise (fun a b => b.2 ≤ a.2) := by decide

/-- The loop body of `extract_amount`: amount of the first rule of the
sorted table whose pattern matches, else 0. -/
def amountFromRules (t : List Char) : Int :=
  match sortedRules.find? (fun r => patternSearch r.1 t) with
  | some r => r.2
  | none => 0

/-- Embeds `extract_amount(text)`: lower-case the text, then take the first
matching rule of the descending-sorted table. -/
def extract_amount (text : String) : Int :=
  amountFromRules (lowerStr text).data

/-- Embeds `is_valid_phone(phone)`: strip non-digits (`re.sub(r'\D','',phone)`),
then require one of the region prefixes and length at least 9. -/
def is_valid_phone (phone : String) : Bool :=
  let p := phone.data.filter Char.isDigit
  ("375".data.isPrefixOf p || "8029".data.isPrefixOf p ||
   "8044".data.isPrefixOf p || "8033".data.isPrefixOf p ||
   "8025".data.isPrefixOf p) && decide (9 ≤ p.length)

/-- The record populated by `extract_fields` (the `fields` dict of the
source, keys `interval`, `address`, `phone`, `comment`, all default `""`). -/
structure Fields where
  interval : String
  address : String
  phone : String
  comment : String
deriving Repr, DecidableEq

/-- A `\d{1,2}:\d{2}` match starting here: digit, `:`, digit, digit.
(A two-digit-hour match contains a one-digit match one position later,
so testing the one-digit form at every position is exhaustive.) -/
def timeAt : List Char → Bool
  | a :: b :: c :: d :: _ => a.isDigit && decide (b = ':') && c.isDigit && d.isDigit
  | _ => false

/-- Whether `re.search(r'\d{1,2}:\d{2}', line)` succeeds. -/
def hasTime (l : List Char) : Bool := l.tails.any timeAt

/-- Seven consecutive digits start here. -/
def sevenDigitsAt : List Char → Bool
  | a :: b :: c :: d :: e :: f :: g :: _ =>
    a.isDigit && b.isDigit && c.isDigit && d.isDigit && e.isDigit && f.isDigit && g.isDigit
  | _ => false

/-- Whether `re.search(r'\+?\d{7,}', line)` succeeds: a run of at least seven
digits exists (the optional `+` does not affect existence). -/
def hasSevenDigitRun (l : List Char) : Bool := l.tails.any sevenDigitsAt

def commentMarker : String := "Комментарий заказчика:"

/-- Python `str.split(sep)` on character lists, scanning left to right and
consuming each non-overlapping occurrence of `sep`.  The `Nat` argument is
recursion fuel (the scan advances at least one character per step, so fuel
equal to the input length is enough); it only makes the recursion
structural, it never runs out when the wrapper below supplies it. -/
def splitOnSepFuel (sep : List Char) : Nat → List Char → List (List Char)
  | _, [] => [[]]
  | 0, l => [l]
  | fuel + 1, a :: rest =>
    if sep ≠ [] ∧ sep.isPrefixOf (a :: rest) = true then
      [] :: splitOnSepFuel sep fuel (rest.drop (sep.length - 1))
    else
      match splitOnSepFuel sep fuel rest with
      | [] => [[a]]
      | h :: t => (a :: h) :: t

/-- Python `str.split(sep)` for a non-empty separator. -/
def splitOnSep (sep l : List Char) : List (List Char) := splitOnSepFuel sep l.length l

/-- Last chunk of a split (`[-1]` in Python; split results are never empty). -/
def lastD : List (List Char) → List Char
  | [] => []
  | [x] => x
  | _ :: xs => lastD xs

/-- Embeds `line.split('Комментарий заказчика:')[-1]`: the text after the last
occurrence of the marker (the whole line when the marker is absent). -/
def afterMarker (line : String) : String :=
  String.mk (lastD (splitOnSep commentMarker.data line.data))

/-- The loop body of `extract_fields`: classify one line and overwrite
the corresponding field (if / elif / elif / else, so each line updates
exactly one field). -/
def classifyLine (f : Fields) (line : String) : Fields :=
  if hasTime line.data || isSub "ближайшее".data (lowerStr line).data
      || isSub "как можно скорее".data (lowerStr line).data then
    { f with interval := pyStrip line }
  else if isSub commentMarker.data line.data then
    { f with comment := pyStrip (afterMarker line) }
  else if hasSevenDigitRun line.data then
    { f with phone := String.mk ((pyStrip line).data.filter (fun c => c.isDigit || c = '+')) }
  else
    { f with address := pyStrip line }

/-- Embeds `extract_fields(text)`: strip, split into lines (`split('\n')`), fold
the classifier over the lines starting from the all-empty record. -/
def extract_fields (text : String) : Fields :=
  ((splitOnSep ['\n'] (pyStrip text).data).map String.mk).foldl classifyLine ⟨"", "", "", ""⟩

/-- The store `user_income_storage`: user id → calendar day → accumulated amount.
The defaultdict's missing entries are the value 0; the wall-clock date
`datetime.now().date()` is passed explicitly as a `Nat` day index. -/
def Ledger : Type := Int → Nat → Int

def emptyLedger : Ledger := fun _ _ => 0

/-- Embeds `add_income(user_id, amount)`: add to today's bucket and return the
new ledger together with the updated total (the function's return value). -/
def add_income (st : Ledger) (user_id : Int) (today : Nat) (amount : Int) : Ledger × Int :=
  let newTotal := st user_id today + amount
  (fun u d => if u = user_id ∧ d = today then newTotal else st u d, newTotal)

/-- Embeds `get_income_today(user_id)`: today's bucket, 0 when absent. -/
def get_income_today (st : Ledger) (user_id : Int) (today : Nat) : Int :=
  st user_id today

/-- A sequence of `add_income` calls, each given as
(user id, day of the call, amount). -/
def applyCredits (st : Ledger) (evs : List (Int × Nat × Int)) : Ledger :=
  evs.foldl (fun s e => (add_income s e.1 e.2.1 e.2.2).1) st

/-- Sum of the amounts of the events recorded for user `u` on day `d`. -/
def sumFor (u : Int) (d : Nat) (evs : List (Int × Nat × Int)) : Int :=
  ((evs.filter (fun e => e.1 == u && e.2.1 == d)).map (fun e => e.2.2)).sum

/-- The table `ALLOWED_CONTEXTS`: chat id → list of permitted thread ids. -/
def ALLOWED_CONTEXTS : List (Int × List Int) :=
  [ (-1002079167705, [7340]),
    (-1002387655137, [9]),
    (-1002423500927, [4]),
    (-1002178818697, [4]) ]

/-- The dispatcher's gate
`chat_id in ALLOWED_CONTEXTS and thread_id in ALLOWED_CONTEXTS[chat_id]`. -/
def allowedContext (chat_id thread_id : Int) : Bool :=
  match ALLOWED_CONTEXTS.find? (fun p => p.1 == chat_id) with
  | some p => p.2.contains thread_id
  | none => false

/-- A space followed by `sign` occurs somewhere in the list. -/
def signAfterSpace (sign : Char) : List Char → Bool
  | a :: b :: rest => (pyIsSpace a && decide (b = sign)) || signAfterSpace sign (b :: rest)
  | _ => false

/-- Whether `re.search(r"(^|\s)[\+\-]", s)` restricted to the `+` alternative of
the character class: `+` at the start or after whitespace. -/
def plusTrigger (s : String) : Bool :=
  decide (s.data.head? = some '+') || signAfterSpace '+' s.data

/-- Whether `re.search(r"(^|\s)[\+\-]", s)` restricted to the `-` alternative of
the character class: `-` at the start or after whitespace. -/
def minusTrigger (s : String) : Bool :=
  decide (s.data.head? = some '-') || signAfterSpace '-' s.data

/-- Whether `re.search(r"(^|\s)[\+\-]", s)` succeeds: the character class splits
into the two sign alternatives. -/
def incomeTrigger (s : String) : Bool := plusTrigger s || minusTrigger s

/-- The literal `PROMPT_TEMPLATE` (triple-quoted string of the source, including its
leading and trailing newline). -/
def PROMPT_TEMPLATE : String :=
  "\nТы помощник службы доставки. Из текста заявки извлеки:\n\n1. Временной интервал доставки (или фразу: \"в ближайшее время\", \"как можно скорее\")\n2. Адрес с номером дома\n3. Номер телефона\n4. Комментарий заказчика (если есть)\n\nФормат ответа:\n[временной интервал]\n[адрес]\n[номер телефона]\nКомментарий заказчика: [если есть]\n\nВот заявка:\n\x7btext\x7d\n"

/-- Embeds `PROMPT_TEMPLATE.replace("{text}", user_text)`: split on the
placeholder and rejoin with the message text. -/
def buildPrompt (user_text : String) : String :=
  String.mk (List.intercalate user_text.data
    (splitOnSep "\x7btext\x7d".data PROMPT_TEMPLATE.data))

/-- Result of the inline validation block of `handle_message`
(lines 134-161 of the source). -/
inductive ValidationOutcome where
  | accepted (formatted : String)
  | rejectedMissingFields (missing : List String)
  | rejectedInvalidPhone
deriving Repr, DecidableEq

/-- The `formatted` f-string: interval, address, phone, then the comment
line with a dash when the comment is empty. -/
def formatOrder (d : Fields) : String :=
  d.interval ++ "\n" ++ d.address ++ "\n" ++ d.phone ++
    "\nКомментарий заказчика: " ++ (if d.comment = "" then "—" else d.comment)

/-- The source's `if missing: reject / else accept` tail. -/
def finishMissing (d : Fields) (missing : List String) : ValidationOutcome :=
  if missing = [] then ValidationOutcome.accepted (formatOrder d)
  else ValidationOutcome.rejectedMissingFields missing

/-- The validation block of `handle_message`: accumulate the missing
labels for address (`empty or no digit`) and interval (`empty`); an empty
phone joins the missing list, while a present-but-invalid phone replies
the invalid-phone rejection immediately; otherwise reject on a non-empty
missing list, else accept with the canonical formatting. -/
def validate_order (d : Fields) : ValidationOutcome :=
  let missing : List String :=
    (if d.address = "" ∨ (d.address.data.any Char.isDigit) = false
      then ["адрес с номером дома"] else [])
    ++ (if d.interval = "" then ["временной интервал"] else [])
  if d.phone = "" then
    finishMissing d (missing ++ ["номер телефона"])
  else if is_valid_phone d.phone = false then
    ValidationOutcome.rejectedInvalidPhone
  else
    finishMissing d missing

/-- The missing-field labels an order accumulates, in the source's
order: address when empty or without a digit, interval when empty,
phone when empty. -/
def specMissingFields (d : Fields) : List String :=
  (if d.address = "" ∨ (d.address.data.any Char.isDigit) = false
    then ["адрес с номером дома"] else [])
  ++ (if d.interval = "" then ["временной интервал"] else [])
  ++ (if d.phone = "" then ["номер телефона"] else [])

/-- The inbound message event as `handle_message` reads it: chat id,
optional thread id (`message.message_thread_id`), sender id, text. -/
structure Message where
  chat_id : Int
  message_thread_id : Option Int
  from_user_id : Int
  text : String

/-- Observable actions of one `handle_message` run, in order.
`sendDirect`'s flag records whether delivery succeeded (the source
swallows the exception either way); `callProvider`'s flag records whether
the completion call succeeded. -/
inductive Effect where
  | creditIncome (user_id : Int) (amount : Int)
  | sendDirect (user_id : Int) (txt : String) (delivered : Bool)
  | callProvider (prompt : String) (ok : Bool)
  | replyInChat (txt : String)
deriving Repr, DecidableEq

/-- The direct-message text `f"+{amount} BYN.\nДоход: {total_today} BYN"`. -/
def incomeMsg (amount total : Int) : String :=
  "+" ++ toString amount ++ " BYN.\nДоход: " ++ toString total ++ " BYN"

/-- The invalid-phone rejection reply (two adjacent literals of the source). -/
def phoneRejectReply : String :=
  "🚫 Заказ не принят в работу! Причина: номер получателя не соответствует региону осуществления деятельности службы доставки. Пожалуйста, пришлите корректный номер телефона в формате +375XXXXXXXXX или своими силами осуществите связь водителя с получателем."

/-- The missing-fields rejection reply with the joined missing list. -/
def missingReply (missing : List String) : String :=
  "🚫 Заказ не принят в работу! Причина: Не хватает данных для осуществления доставки. Пожалуйста, уточните данные и пришлите заявку повторно.\n\nНе хватает: "
    ++ String.intercalate ", " missing

/-- The accepted reply around the formatted order. -/
def acceptedReply (formatted : String) : String :=
  "✅ Заказ принят в работу:\n" ++ formatted

/-- The generic order-path error reply of the `except` clause. -/
def errReply : String := "⚠️ Ошибка при обработке заявки. Попробуйте ещё раз."

/-- Embeds `handle_message` in state-passing form.  `st`/`today` stand for the
global ledger and the wall-clock date; `sendOk` says whether the direct
message send would succeed (its failure is swallowed by `try/except
pass`); `provider` is the completion call, `Except.error` standing for
any exception out of `openai.chat.completions.create` (caught by the
outer `except`, which logs and sends the generic error reply).  Returns
the new ledger and the trace of effects. -/
def handle_message (msg : Message) (st : Ledger) (today : Nat) (sendOk : Bool)
    (provider : String → Except Unit String) : Ledger × List Effect :=
  let thread_id := msg.message_thread_id.getD 0
  if allowedContext msg.chat_id thread_id = false then
    (st, [])
  else if incomeTrigger msg.text = true ∧ extract_amount msg.text ≠ 0 then
    let amount := extract_amount msg.text
    let res := add_income st msg.from_user_id today amount
    (res.1, [Effect.creditIncome msg.from_user_id amount,
             Effect.sendDirect msg.from_user_id (incomeMsg amount res.2) sendOk])
  else
    let prompt := buildPrompt msg.text
    match provider prompt with
    | Except.error _ =>
      (st, [Effect.callProvider prompt false, Effect.replyInChat errReply])
    | Except.ok response =>
      let data := extract_fields (pyStrip response)
      match validate_order data with
      | ValidationOutcome.rejectedInvalidPhone =>
        (st, [Effect.callProvider prompt true, Effect.replyInChat phoneRejectReply])
      | ValidationOutcome.rejectedMissingFields missing =>
        (st, [Effect.callProvider prompt true, Effect.replyInChat (missingReply missing)])
      | ValidationOutcome.accepted formatted =>
        (st, [Effect.callProvider prompt true, Effect.replyInChat (acceptedReply formatted)])

/-- A completion provider that always raises. -/
def provFail : String → Except Unit String := fun _ => Except.error ()

/-! ## Sanity checks -/

example : extract_amount "мк доп синяя" = 23 := by decide
example : extract_amount "+15" = 10 := by decide
example : extract_amount "а -5" = 0 := by decide
example : extract_amount "-5" = 10 := by decide
example : is_valid_phone "+375291234567" = true := by decide
example : is_valid_phone "12345" = false := by decide

example :
    extract_fields "с 14:00 до 16:00\nул. Ленина 5\n+375291234567\nКомментарий заказчика: позвонить за 10 минут"
      = ⟨"с 14:00 до 16:00", "ул. Ленина 5", "+375291234567", "позвонить за 10 минут"⟩ := by
  decide

example :
    (handle_message ⟨-1002079167705, some 7340, 42, "+15"⟩ emptyLedger 0 false provFail).2
      = [Effect.creditIncome 42 10, Effect.sendDirect 42 "+10 BYN.\nДоход: 10 BYN" false] := by
  decide

example :
    get_income_today
      (handle_message ⟨-1002079167705, some 7340, 42, "+15"⟩ emptyLedger 3 false provFail).1 42 3
      = 10 := by
  decide

example :
    (handle_message ⟨-1002079167705, some 7340, 1, "а -5"⟩ emptyLedger 0 true provFail).2
      = [Effect.callProvider (buildPrompt "а -5") false, Effect.replyInChat errReply] := by
  decide

example :
    handle_message ⟨123, none, 1, "+15"⟩ emptyLedger 0 true provFail = (emptyLedger, []) := by
  simp [handle_message, allowedContext, ALLOWED_CONTEXTS]

/-! ## Helper lemmas -/

/-- Every amount of the rule table is at least 10. -/
theorem sortedRules_amount_ge_ten : ∀ r ∈ sortedRules, 10 ≤ r.2 := by decide

/-- The classifier returns 0 exactly when no rule pattern matches the
lower-cased text. -/
theorem amountFromRules_eq_zero_iff (t : List Char) :
    amountFromRules t = 0 ↔ ∀ r ∈ sortedRules, patternSearch r.1 t = false := by
  unfold amountFromRules
  cases h : sortedRules.find? (fun r => patternSearch r.1 t) with
  | none =>
    rw [List.find?_eq_none] at h
    refine ⟨fun _ r hr => ?_, fun _ => rfl⟩
    simpa using h r hr
  | some r =>
    have hm := List.mem_of_find?_eq_some h
    have hp := List.find?_some h
    constructor
    · intro h0
      have h0' : r.2 = 0 := h0
      have := sortedRules_amount_ge_ten r hm
      omega
    · intro hall
      have := hall r hm
      simp [this] at hp

/-- If a space-then-`c` pair occurs, then `c` occurs. -/
theorem mem_of_signAfterSpace (c : Char) :
    ∀ l : List Char, signAfterSpace c l = true → c ∈ l := by
  intro l
  induction l with
  | nil => simp [signAfterSpace]
  | cons a t ih =>
    cases t with
    | nil => simp [signAfterSpace]
    | cons b t2 =>
      rw [signAfterSpace]
      simp only [Bool.or_eq_true, Bool.and_eq_true, decide_eq_true_eq]
      rintro (⟨_, rfl⟩ | h)
      · exact List.mem_cons_of_mem _ (List.mem_cons_self _ _)
      · exact List.mem_cons_of_mem _ (ih h)

/-- Each bucket of the ledger accumulates exactly the matching credits. -/
theorem applyCredits_bucket (evs : List (Int × Nat × Int)) :
    ∀ (st : Ledger) (u : Int) (d : Nat),
      get_income_today (applyCredits st evs) u d = get_income_today st u d + sumFor u d evs := by
  induction evs with
  | nil => intro st u d; simp [applyCredits, sumFor]
  | cons e evs ih =>
    intro st u d
    have step : applyCredits st (e :: evs) = applyCredits ((add_income st e.1 e.2.1 e.2.2).1) evs := rfl
    rw [step, ih]
    by_cases hm : u = e.1 ∧ d = e.2.1
    · obtain ⟨hu, hd⟩ := hm
      subst hu; subst hd
      simp [get_income_today, add_income, sumFor, List.filter_cons]
      ring
    · have hne : ¬(e.1 == u && e.2.1 == d) = true := by
        simp only [Bool.and_eq_true, beq_iff_eq]
        intro ⟨h1, h2⟩
        exact hm ⟨h1.symm, h2.symm⟩
      simp only [get_income_today, add_income, sumFor, List.filter_cons, hne, if_neg hm,
        if_false, Bool.false_eq_true]

/-- A text containing `+` keeps it under lower-casing, so the bottom rule
of the table matches and the classifier returns at least 10. -/
theorem ten_le_extract_amount_of_plus (s : String) (h : '+' ∈ s.data) :
    10 ≤ extract_amount s := by
  have hl : '+' ∈ (lowerStr s).data := by
    simp only [lowerStr]
    exact List.mem_map.mpr ⟨'+', h, by decide⟩
  unfold extract_amount amountFromRules
  cases hf : sortedRules.find? (fun r => patternSearch r.1 (lowerStr s).data) with
  | none =>
    rw [List.find?_eq_none] at hf
    have hmem : (PricePattern.plusOrStartMinus, (10 : Int)) ∈ sortedRules := by decide
    have := hf _ hmem
    simp [patternSearch, hl] at this
  | some r =>
    exact sortedRules_amount_ge_ten r (List.mem_of_find?_eq_some hf)

/-! ## Claims -/

/-- C1, counterexample: in an allowed context, the text "а -5" contains a
`-` after whitespace and the price classifier returns 0, yet processing
is not terminal with no reply: the dispatcher falls through to the order
path, builds the prompt, calls the completion provider and sends the
error reply, so the claimed silent drop is false at this input. -/
theorem C1_counterexample :
    allowedContext (-1002079167705) 7340 = true ∧
    incomeTrigger "а -5" = true ∧
    extract_amount "а -5" = 0 ∧
    (handle_message ⟨-1002079167705, some 7340, 1, "а -5"⟩ emptyLedger 0 true provFail).2
      = [Effect.callProvider (buildPrompt "а -5") false, Effect.replyInChat errReply] :=
  ⟨by decide, by decide, by decide, by decide⟩

/-- C1, amended: for every inbound message in an allowed context whose
text triggers the income branch, if the price classifier returns 0 then
no income is credited and no direct message is sent (the ledger is
unchanged), but processing is not terminal: it falls through to the order
path, where the prompt is built and the completion provider is called. -/
theorem C1_zero_amount_falls_through (msg : Message) (st : Ledger) (today : Nat)
    (sendOk : Bool) (provider : String → Except Unit String)
    (hA : allowedContext msg.chat_id (msg.message_thread_id.getD 0) = true)
    (_hT : incomeTrigger msg.text = true)
    (h0 : extract_amount msg.text = 0) :
    (handle_message msg st today sendOk provider).1 = st ∧
    ∃ ok rest, (handle_message msg st today sendOk provider).2
      = Effect.callProvider (buildPrompt msg.text) ok :: rest := by
  unfold handle_message
  simp only [hA, h0, Bool.true_eq_false, if_false, ne_eq, not_true_eq_false, and_false,
    if_neg, not_false_eq_true, reduceIte]
  constructor
  · split
    · rfl
    · split <;> rfl
  · split
    · exact ⟨false, [Effect.replyInChat errReply], rfl⟩
    · split
      · exact ⟨true, [Effect.replyInChat phoneRejectReply], rfl⟩
      · exact ⟨true, [Effect.replyInChat (missingReply _)], rfl⟩
      · exact ⟨true, [Effect.replyInChat (acceptedReply _)], rfl⟩

theorem C1_zero_amount_falls_through_witness :
    (handle_message ⟨-1002079167705, some 7340, 1, "а -5"⟩ emptyLedger 0 true provFail).1
        = emptyLedger ∧
    ∃ ok rest,
      (handle_message ⟨-1002079167705, some 7340, 1, "а -5"⟩ emptyLedger 0 true provFail).2
        = Effect.callProvider (buildPrompt "а -5") ok :: rest :=
  C1_zero_amount_falls_through _ _ _ _ _ (by decide) (by decide) (by decide)

/-- C2, counterexample: for the text "+15" the classifier returns the
`\+` rule's amount 10, not 15, and the dispatcher credits 10, so the
sender's today total afterwards is 10, not the claimed 15. -/
theorem C2_counterexample :
    extract_amount "+15" = 10 ∧ extract_amount "+15" ≠ 15 ∧
    get_income_today
      (handle_message ⟨-1002079167705, some 7340, 42, "+15"⟩ emptyLedger 0 false provFail).1
      42 0 = 10 ∧
    ¬ get_income_today
      (handle_message ⟨-1002079167705, some 7340, 42, "+15"⟩ emptyLedger 0 false provFail).1
      42 0 = 15 :=
  ⟨by decide, by decide, by decide, by decide⟩

/-- C2, amended: for the text "+15" in an allowed context, the dispatcher
credits amount 10 (the `\+` rule's amount) to the sender's today bucket
and attempts a direct message; the outcome is the same whether or not the
direct send succeeds (`sendOk`), so a failed send is swallowed and the
subsequent today total still reflects the credited 10. -/
theorem C2_plus15_credits_ten (chat : Int) (tid : Option Int) (uid : Int) (st : Ledger)
    (today : Nat) (sendOk : Bool) (provider : String → Except Unit String)
    (hA : allowedContext chat (tid.getD 0) = true) :
    handle_message ⟨chat, tid, uid, "+15"⟩ st today sendOk provider
      = ((add_income st uid today 10).1,
         [Effect.creditIncome uid 10,
          Effect.sendDirect uid (incomeMsg 10 (get_income_today st uid today + 10)) sendOk]) ∧
    get_income_today
      (handle_message ⟨chat, tid, uid, "+15"⟩ st today sendOk provider).1 uid today
      = get_income_today st uid today + 10 := by
  have hT : incomeTrigger "+15" = true := by decide
  have hE : extract_amount "+15" = 10 := by decide
  have hmain : handle_message ⟨chat, tid, uid, "+15"⟩ st today sendOk provider
      = ((add_income st uid today 10).1,
         [Effect.creditIncome uid 10,
          Effect.sendDirect uid (incomeMsg 10 (get_income_today st uid today + 10)) sendOk]) := by
    unfold handle_message
    simp only [hA, hT, hE]
    norm_num [add_income, get_income_today]
  refine ⟨hmain, ?_⟩
  rw [hmain]
  simp [add_income, get_income_today]

theorem C2_plus15_credits_ten_witness :
    handle_message ⟨-1002387655137, some 9, 7, "+15"⟩ emptyLedger 5 false provFail
      = ((add_income emptyLedger 7 5 10).1,
         [Effect.creditIncome 7 10,
          Effect.sendDirect 7 (incomeMsg 10 (get_income_today emptyLedger 7 5 + 10)) false]) ∧
    get_income_today
      (handle_message ⟨-1002387655137, some 9, 7, "+15"⟩ emptyLedger 5 false provFail).1 7 5
      = get_income_today emptyLedger 7 5 + 10 :=
  C2_plus15_credits_ten _ _ _ _ _ _ _ (by decide)

/-- C3: a present-but-invalid phone is rejected alone: whatever the
address and interval checks would have accumulated, the validator's
outcome is `rejectedInvalidPhone`. -/
theorem C3_invalid_phone_precedence (d : Fields) (h1 : d.phone ≠ "")
    (h2 : is_valid_phone d.phone = false) :
    validate_order d = ValidationOutcome.rejectedInvalidPhone := by
  simp [validate_order, h1, h2]

theorem C3_invalid_phone_precedence_witness :
    validate_order ⟨"", "нет номера", "12345", ""⟩
      = ValidationOutcome.rejectedInvalidPhone :=
  C3_invalid_phone_precedence _ (by decide) (by decide)

/-- C4: the price classifier lower-cases its input and scans the rule
table sorted by amount descending (`sortedRules` is a permutation of
`PRICE_MAP` that is pairwise descending), returning the first match, and
0 exactly when no rule matches; it is a function of the text alone, and
on "мк доп синяя" the specific colour rule wins: the result is 23, not
the generic rule's 15. -/
theorem C4_price_classifier :
    (∀ s : String, extract_amount s = amountFromRules (lowerStr s).data) ∧
    sortedRules.Perm PRICE_MAP ∧
    sortedRules.Pairwise (fun a b => b.2 ≤ a.2) ∧
    (∀ s : String, extract_amount s = 0 ↔
      ∀ r ∈ sortedRules, patternSearch r.1 (lowerStr s).data = false) ∧
    extract_amount "мк доп синяя" = 23 ∧ extract_amount "мк доп синяя" ≠ 15 :=
  ⟨fun _ => rfl, sortedRules_perm, sortedRules_sorted,
   fun s => amountFromRules_eq_zero_iff (lowerStr s).data, by decide, by decide⟩

/-- C5: the phone validator strips every non-digit character and accepts
exactly the inputs whose digit string has one of the allowed region
prefixes and length at least 9; the four spec examples behave as stated. -/
theorem C5_phone_validator :
    (∀ s : String,
      is_valid_phone s = true ↔
        (let p := s.data.filter Char.isDigit
         ("375".data.isPrefixOf p = true ∨ "8029".data.isPrefixOf p = true ∨
          "8044".data.isPrefixOf p = true ∨ "8033".data.isPrefixOf p = true ∨
          "8025".data.isPrefixOf p = true) ∧ 9 ≤ p.length)) ∧
    is_valid_phone "+375291234567" = true ∧
    is_valid_phone "80291234567" = true ∧
    is_valid_phone "+79991234567" = false ∧
    is_valid_phone "12345" = false := by
  refine ⟨?_, by decide, by decide, by decide, by decide⟩
  intro s
  simp [is_valid_phone, Bool.or_eq_true, Bool.and_eq_true, decide_eq_true_eq, or_assoc]

/-- C6: the field extractor classifies each line by the fixed priority
(time shape or nearest-time keywords, then the comment marker, then a
long digit run, else address), each line updating exactly one field with
later lines overwriting, fields defaulting to empty; on the four-line
spec input it returns exactly the stated record. -/
theorem C6_field_extractor :
    extract_fields "с 14:00 до 16:00\nул. Ленина 5\n+375291234567\nКомментарий заказчика: позвонить за 10 минут"
      = ⟨"с 14:00 до 16:00", "ул. Ленина 5", "+375291234567", "позвонить за 10 минут"⟩ ∧
    (∀ (f : Fields) (line : String),
      classifyLine f line = { f with interval := pyStrip line } ∨
      classifyLine f line = { f with comment := pyStrip (afterMarker line) } ∨
      classifyLine f line
        = { f with phone := String.mk ((pyStrip line).data.filter (fun c => c.isDigit || c = '+')) } ∨
      classifyLine f line = { f with address := pyStrip line }) ∧
    extract_fields "" = ⟨"", "", "", ""⟩ := by
  refine ⟨by decide, ?_, by decide⟩
  intro f line
  unfold classifyLine
  split_ifs
  · exact Or.inl rfl
  · exact Or.inr (Or.inl rfl)
  · exact Or.inr (Or.inr (Or.inl rfl))
  · exact Or.inr (Or.inr (Or.inr rfl))

/-- When the phone does not trigger the invalid-phone rejection, the
validator's result is the accept-or-reject decision over exactly the
spec's missing-field list. -/
theorem validate_order_eq_finishMissing (d : Fields)
    (h : d.phone = "" ∨ is_valid_phone d.phone = true) :
    validate_order d = finishMissing d (specMissingFields d) := by
  by_cases hp : d.phone = ""
  · unfold validate_order specMissingFields
    simp [hp, List.append_assoc]
  · have hvv : is_valid_phone d.phone = true := h.resolve_left hp
    unfold validate_order specMissingFields
    simp [hp, hvv]

/-- C7: when the phone does not trigger the invalid-phone rejection
(it is empty or valid), the validator rejects with exactly the labels of
the missing fields when any are missing, and accepts otherwise. -/
theorem C7_missing_fields (d : Fields)
    (h : d.phone = "" ∨ is_valid_phone d.phone = true) :
    (specMissingFields d ≠ [] →
      validate_order d = ValidationOutcome.rejectedMissingFields (specMissingFields d)) ∧
    (specMissingFields d = [] →
      validate_order d = ValidationOutcome.accepted (formatOrder d)) := by
  rw [validate_order_eq_finishMissing d h]
  unfold finishMissing
  constructor
  · intro hne
    rw [if_neg hne]
  · intro hnil
    rw [if_pos hnil]

theorem C7_missing_fields_witness :
    validate_order ⟨"", "ул. Ленина 5", "", ""⟩
      = ValidationOutcome.rejectedMissingFields ["временной интервал", "номер телефона"] := by
  have h := (C7_missing_fields ⟨"", "ул. Ленина 5", "", ""⟩ (Or.inl rfl)).1 (by decide)
  have e : specMissingFields ⟨"", "ул. Ленина 5", "", ""⟩
      = ["временной интервал", "номер телефона"] := by decide
  rw [e] at h
  exact h

/-- C8: `add_income` returns the updated bucket (previous total plus the
amount); an untouched ledger reads 0; and after any sequence of credits
each (user, day) bucket holds exactly the sum of the amounts credited to
that user on that day, so credits on other days or users never affect it. -/
theorem C8_income_ledger :
    (∀ (st : Ledger) (u : Int) (day : Nat) (a : Int),
      (add_income st u day a).2 = get_income_today st u day + a) ∧
    (∀ (u : Int) (day : Nat), get_income_today emptyLedger u day = 0) ∧
    (∀ (evs : List (Int × Nat × Int)) (u : Int) (day : Nat),
      get_income_today (applyCredits emptyLedger evs) u day = sumFor u day evs) := by
  refine ⟨fun st u day a => rfl, fun u day => rfl, fun evs u day => ?_⟩
  rw [applyCredits_bucket]
  simp [get_income_today, emptyLedger]

/-- C9: a message whose (chat, thread) pair — thread defaulting to 0 — is
not allowed is dropped with no effects at all: the ledger is returned
unchanged and the effect trace is empty. -/
theorem C9_access_filter (msg : Message) (st : Ledger) (today : Nat) (sendOk : Bool)
    (provider : String → Except Unit String)
    (h : allowedContext msg.chat_id (msg.message_thread_id.getD 0) = false) :
    handle_message msg st today sendOk provider = (st, []) := by
  unfold handle_message
  simp [h]

theorem C9_access_filter_witness :
    handle_message ⟨123, none, 1, "+15"⟩ emptyLedger 0 true provFail = (emptyLedger, []) :=
  C9_access_filter _ _ _ _ _ (by decide)

/-- C10: any text containing `+` is classified at 10 or more (the bottom
rule of the table matches it), so the classifier never returns 0 for such
a text and the zero-amount income branch is reachable only through the
`-` alternative of the trigger. -/
theorem C10_plus_never_zero :
    (∀ s : String, '+' ∈ s.data → 10 ≤ extract_amount s) ∧
    (∀ s : String, incomeTrigger s = true → extract_amount s = 0 → minusTrigger s = true) := by
  constructor
  · exact ten_le_extract_amount_of_plus
  · intro s hT h0
    rcases Bool.or_eq_true _ _ |>.mp hT with hplus | hminus
    · exfalso
      have hmem : '+' ∈ s.data := by
        rcases Bool.or_eq_true _ _ |>.mp hplus with hh | hs
        · cases hd : s.data with
          | nil => rw [hd] at hh; simp at hh
          | cons a t =>
            rw [hd] at hh
            simp only [List.head?, decide_eq_true_eq, Option.some.injEq] at hh
            rw [hh]
            exact List.mem_cons_self _ _
        · exact mem_of_signAfterSpace '+' s.data hs
      have := ten_le_extract_amount_of_plus s hmem
      omega
    · exact hminus

theorem C10_plus_never_zero_witness :
    10 ≤ extract_amount "+15" ∧ minusTrigger "а -5" = true :=
  ⟨C10_plus_never_zero.1 "+15" (by decide),
   C10_plus_never_zero.2 "а -5" (by decide) (by decide)⟩

end Main
